import Mathlib

/-!
Shallow embedding of the Heidelberg/Printex PDF Renamer (JavaScript) —
the product-code generator (`src/assets/js/modules/productCode.js`),
the Swiss number helpers (`src/WebApp/assets/js/utils/helpers.js`) and
the form/file validator (Validator class in `src/assets/js/modules/ui.js`).

JavaScript strings are modelled as Lean `String` (lists of characters);
`null`/`undefined`-able values as `Option`; JS numbers as exact integers
(`Nat`/`Int`) — the quantities handled here are print-run counts and file
sizes, far inside the exactly-representable integer range of JS floats.
-/

namespace PDFRename

/-- The JavaScript whitespace class: the characters matched by `\s` in a JS
regular expression and stripped by `String.prototype.trim`. -/
def jsSpaceChars : List Char :=
  [' ', '\t', '\n', '\x0b', '\x0c', '\r',
   '\u00a0', '\u1680',
   '\u2000', '\u2001', '\u2002', '\u2003', '\u2004', '\u2005', '\u2006',
   '\u2007', '\u2008', '\u2009', '\u200a',
   '\u2028', '\u2029', '\u202f', '\u205f', '\u3000', '\ufeff']

def isJsSpace (c : Char) : Bool := jsSpaceChars.contains c

/-- Trim on the character list: drop JS whitespace from both ends. -/
def listTrim (l : List Char) : List Char :=
  ((l.dropWhile isJsSpace).reverse.dropWhile isJsSpace).reverse

/-- `String.prototype.trim`. -/
def jsTrim (s : String) : String := String.mk (listTrim s.data)

/-- Decimal value of a digit list (most significant first). -/
def digitsToNat (l : List Char) : Nat :=
  l.foldl (fun a c => 10 * a + (c.toNat - 48)) 0

/-- The decimal digit characters `0`-`9` (the JS regex class `\d`). -/
def isDigitChar (c : Char) : Bool := 48 ≤ c.toNat && c.toNat ≤ 57

/-- Value of the longest leading run of decimal digits; `none` when there is
no leading digit (JS `parseInt` returns `NaN` then). -/
def leadingDigitsVal (l : List Char) : Option Nat :=
  let ds := l.takeWhile isDigitChar
  if ds.isEmpty then none else some (digitsToNat ds)

/-- JS `parseInt(s, 10)`: skip leading whitespace, optional sign, then the
longest run of decimal digits; `none` models `NaN`. The digit value is
kept exact: JS converts to an IEEE-754 double, which agrees with this up
to 2 ^ 53 — the range every theorem below stays inside. -/
def jsParseInt (s : String) : Option Int :=
  match s.data.dropWhile isJsSpace with
  | '+' :: rest => Option.map (fun n => Int.ofNat n) (leadingDigitsVal rest)
  | '-' :: rest => Option.map (fun n => -Int.ofNat n) (leadingDigitsVal rest)
  | l => Option.map (fun n => Int.ofNat n) (leadingDigitsVal l)

/-- Decimal digit characters, most significant first; the fuel argument
(any value above the input) keeps the recursion structural. -/
def natToDigitsAux : Nat → Nat → List Char
  | 0, _ => []
  | fuel + 1, n =>
    if n < 10 then [Nat.digitChar n]
    else natToDigitsAux fuel (n / 10) ++ [Nat.digitChar (n % 10)]

/-- Decimal digit characters of `n`, most significant first. -/
def natToDigits (n : Nat) : List Char := natToDigitsAux (n + 1) n

/-- JS `Number.prototype.toString` on an integer value of magnitude below
2 ^ 53 (exactly representable, and far below the 1e21 threshold where JS
switches to exponential notation) — the range every theorem below stays
inside. -/
def intToString (i : Int) : String :=
  if i < 0 then "-" ++ String.mk (natToDigits i.natAbs)
  else String.mk (natToDigits i.toNat)

/-- JS `String.prototype.toLowerCase`: exact on the ASCII and Latin-1
ranges (code points up to 255), the identity above them, where the full
Unicode mapping is not modelled — theorems that depend on this function's
value restrict themselves to the exact range. -/
def jsToLower (c : Char) : Char :=
  if 65 ≤ c.toNat ∧ c.toNat ≤ 90 then Char.ofNat (c.toNat + 32)
  else if 192 ≤ c.toNat ∧ c.toNat ≤ 222 ∧ c.toNat ≠ 215 then Char.ofNat (c.toNat + 32)
  else c

/-- JS `String.prototype.toUpperCase`, on the ASCII letters — the only
characters the modelled code paths feed to it. -/
def jsToUpper (c : Char) : Char :=
  if 97 ≤ c.toNat ∧ c.toNat ≤ 122 then Char.ofNat (c.toNat - 32)
  else c

/-- JS `String.prototype.startsWith`, at character level. -/
def jsStartsWith (s pre : String) : Bool := pre.data.isPrefixOf s.data

/-- JS `String.prototype.endsWith`, at character level. -/
def jsEndsWith (s suf : String) : Bool := suf.data.isSuffixOf s.data

/-! ## Data model -/

/-- A form-data record: each field may be absent/`null` (`none`) or a
string. -/
structure FormData where
  auftragsnummer : Option String
  kunde : Option String
  auftragsposition : Option String
  maschine : Option String
  auflage : Option String
  produkt : Option String
  papierart : Option String
  papiername : Option String
  deriving Repr, DecidableEq

/-- An entry of the machines/products/papers config lists. -/
structure ConfigEntry where
  name : String
  code : String
  deriving Repr, DecidableEq

/-- The application config; each lookup array may be absent (the source
guards with optional chaining `config.machines?.find`). -/
structure Config where
  machines : Option (List ConfigEntry)
  products : Option (List ConfigEntry)
  papers : Option (List ConfigEntry)
  deriving Repr, DecidableEq

/-! ## ProductCodeGenerator (src/assets/js/modules/productCode.js) -/

/-- One required-field check of `validateInput`:
`value && value.toString().trim() !== ''`. -/
def fieldOk (v : Option String) : Bool :=
  match v with
  | none => false
  | some s => jsTrim s ≠ ""

/-- `ProductCodeGenerator.validateInput`: every one of the eight required
fields is present and non-empty after trimming. -/
def validateInput (fd : FormData) : Bool :=
  fieldOk fd.auftragsnummer && fieldOk fd.kunde && fieldOk fd.auftragsposition &&
  fieldOk fd.maschine && fieldOk fd.auflage && fieldOk fd.produkt &&
  fieldOk fd.papierart && fieldOk fd.papiername

/-- `config.machines?.find(m => m.code === value)` and its analogues. -/
def findByCode (entries : Option (List ConfigEntry)) (v : String) : Option ConfigEntry :=
  match entries with
  | none => none
  | some l => l.find? (fun e => e.code == v)

/-- `ProductCodeGenerator.getMachineCode`. -/
def getMachineCode (machineValue : String) (config : Config) : String :=
  match findByCode config.machines machineValue with
  | some m => m.code
  | none => machineValue

/-- `ProductCodeGenerator.getProductCode`. -/
def getProductCode (productValue : String) (config : Config) : String :=
  match findByCode config.products productValue with
  | some p => p.code
  | none => productValue

/-- `ProductCodeGenerator.getPaperCode`. -/
def getPaperCode (paperValue : String) (config : Config) : String :=
  match findByCode config.papers paperValue with
  | some p => p.code
  | none => paperValue

/-- Property names an object literal inherits from `Object.prototype`
(ECMA-262, with the Annex B accessors browsers expose): for these keys a
bracket access on `typeMap` yields the truthy inherited member rather
than `undefined`. -/
def objectPrototypeKeys : List String :=
  ["constructor", "hasOwnProperty", "isPrototypeOf", "propertyIsEnumerable",
   "toLocaleString", "toString", "valueOf", "__proto__",
   "__defineGetter__", "__defineSetter__", "__lookupGetter__", "__lookupSetter__"]

/-- `ProductCodeGenerator.getPaperTypeCode`. `typeMap[papierart] || …` is
a bracket access on an object literal: its two own keys yield their
values, and a property name inherited from `Object.prototype` yields the
truthy inherited member (a function — or the prototype object itself for
`__proto__`), which the `||` then returns. That member's later template
stringification is host-defined (`NativeFunction` source text, or
`[object Object]`); hosts agree only in it being distinct from every
paper-type token and free of `#`, the only facts the theorems below use —
it is tagged here as `"[native " ++ papierart ++ "]"`. Every other value
falls through to `` `${papierart.charAt(0).toLowerCase()}_s` `` (for an
empty string, `charAt(0)` is the empty string). -/
def getPaperTypeCode (papierart : String) : String :=
  if papierart = "gestrichen" then "g_s"
  else if papierart = "ungestrichen" then "u_s"
  else if papierart ∈ objectPrototypeKeys then "[native " ++ papierart ++ "]"
  else (match papierart.data with
        | [] => ""
        | c :: _ => String.mk [jsToLower c]) ++ "_s"

/-- The allow list of `sanitizeText`: the regex class `[a-zA-Z0-9äöüÄÖÜß\-_]`
(everything outside it is removed). -/
def sanitizeAllowed (c : Char) : Bool :=
  (97 ≤ c.toNat && c.toNat ≤ 122) || (65 ≤ c.toNat && c.toNat ≤ 90) ||
  (48 ≤ c.toNat && c.toNat ≤ 57) ||
  c == 'ä' || c == 'ö' || c == 'ü' || c == 'Ä' || c == 'Ö' || c == 'Ü' ||
  c == 'ß' || c == '-' || c == '_'

/-- `.replace(/\s+/g, '-')`, written with an explicit "inside a
whitespace run" flag to keep the recursion structural. -/
def collapseAux : Bool → List Char → List Char
  | _, [] => []
  | inRun, c :: cs =>
    if isJsSpace c then
      if inRun then collapseAux true cs else '-' :: collapseAux true cs
    else c :: collapseAux false cs

/-- `.replace(/\s+/g, '-')`: each maximal run of JS whitespace becomes a
single "-". -/
def collapseSpaceRuns (l : List Char) : List Char := collapseAux false l

/-- `ProductCodeGenerator.sanitizeText`: trim, strip disallowed characters,
replace whitespace runs by "-", truncate to 20 characters. -/
def sanitizeText (text : String) : String :=
  String.mk ((collapseSpaceRuns ((listTrim text.data).filter sanitizeAllowed)).take 20)

/-- `ProductCodeGenerator.buildAuftragsTeil`. -/
def buildAuftragsTeil (auftragsnummer auftragsposition : String) : String :=
  let a := jsTrim auftragsnummer
  let p := jsTrim auftragsposition
  let cleanAuftrag := if jsStartsWith a "A" then a else "A" ++ a
  cleanAuftrag ++ "-" ++ p

/-- `ProductCodeGenerator.buildKundenTeil`. -/
def buildKundenTeil (kunde produkt : String) (config : Config) : String :=
  sanitizeText kunde ++ "-" ++ getProductCode produkt config

/-- `ProductCodeGenerator.buildMaschineTeil`. -/
def buildMaschineTeil (maschine papierart papiername : String) (config : Config) : String :=
  getMachineCode maschine config ++ "_" ++ getPaperTypeCode papierart ++ "_" ++
    getPaperCode papiername config

/-- `ProductCodeGenerator.buildAuflageTeil`: strip apostrophes and
whitespace, `parseInt`, re-render; `none` models the thrown
`Error('Ungültige Auflage')` on `NaN`. Faithful to JS on quantities up to
2 ^ 53 (above that `parseInt` rounds to a double, and from 1e21
`toString` goes exponential) — the theorems below stay in that range. -/
def buildAuflageTeil (auflage : String) : Option String :=
  let cleaned := auflage.data.filter (fun c => !(c == '\x27') && !(isJsSpace c))
  match jsParseInt (String.mk cleaned) with
  | none => none
  | some n => some (intToString n)

/-- `ProductCodeGenerator.buildPapierTeil`. -/
def buildPapierTeil (papiername : String) (config : Config) : String :=
  "D-" ++ getPaperCode papiername config

/-- `ProductCodeGenerator.assembleCode`: `join('#')` over the five parts,
then a trailing "#". -/
def assembleCode (p1 p2 p3 p4 p5 : String) : String :=
  p1 ++ "#" ++ p2 ++ "#" ++ p3 ++ "#" ++ p4 ++ "#" ++ p5 ++ "#"

/-- `ProductCodeGenerator.generate`: empty string when `validateInput`
fails, and the whole `try` block returns "" when `buildAuflageTeil`
throws (the only statement in it that can). -/
def generate (fd : FormData) (config : Config) : String :=
  if !validateInput fd then ""
  else
    let auftragsnummer := fd.auftragsnummer.getD ""
    let kunde := fd.kunde.getD ""
    let auftragsposition := fd.auftragsposition.getD ""
    let maschine := fd.maschine.getD ""
    let auflage := fd.auflage.getD ""
    let produkt := fd.produkt.getD ""
    let papierart := fd.papierart.getD ""
    let papiername := fd.papiername.getD ""
    match buildAuflageTeil auflage with
    | none => ""
    | some auflageTeil =>
      assembleCode (buildAuftragsTeil auftragsnummer auftragsposition)
        (buildKundenTeil kunde produkt config)
        (buildMaschineTeil maschine papierart papiername config)
        auflageTeil
        (buildPapierTeil papiername config)

/-! ## Swiss number helpers (src/WebApp/assets/js/utils/helpers.js) -/

/-- Insert an apostrophe after every three characters of a reversed digit
list, while more digits remain. -/
def groupRevThrees : List Char → List Char
  | d1 :: d2 :: d3 :: d4 :: rest => d1 :: d2 :: d3 :: '\x27' :: groupRevThrees (d4 :: rest)
  | l => l

/-- Modelled from the spec: the source `formatSwissNumber` delegates to
the host `Intl.NumberFormat('de-CH')` implementation, which is not part
of the repository. The spec's worked example renders 1200 as `1'200`:
decimal digits grouped in threes from the right, separated by
apostrophes — corroborated by the repository's own `SWISS_FORMAT`
constants (`LOCALE: 'de-CH'`, `NUMBER_SEPARATOR` U+0027). -/
def formatSwissNumber (n : Nat) : String :=
  String.mk ((groupRevThrees (natToDigits n).reverse).reverse)

/-- `parseSwissNumber` (helpers.js): strip apostrophes and whitespace
(`replace(/[''\s]/g, '')`), then `parseInt(…, 10)`. -/
def parseSwissNumber (formattedNumber : String) : Option Int :=
  jsParseInt (String.mk (formattedNumber.data.filter (fun c => !(c == '\x27') && !(isJsSpace c))))

/-! ## Validator (src/assets/js/modules/ui.js) -/

/-- Result record of `validateField` / `validateFile`: the `valid` flag,
the success payload `value` / `normalizedValue`, and the failure payload
`error` (human message) / `code` (machine-readable). The source's extra
success-only payloads (`numericValue`, `formattedValue`, `fileInfo`) are
not modelled; no modelled caller reads them. -/
structure VResult where
  valid : Bool
  value : Option String := none
  normalizedValue : Option String := none
  error : Option String := none
  code : Option String := none
  deriving Repr, DecidableEq

/-- One per-field rule row of `getValidationRules`. -/
structure Rule where
  required : Bool := false
  pattern : Option (String → Bool) := none
  minLength : Option Nat := none
  maxLength : Option Nat := none
  min : Option Int := none
  max : Option Int := none
  enum : Option (List String) := none
  message : Option String := none

/-- `/^A\d+$/`. -/
def patAuftragsnummer (s : String) : Bool :=
  match s.data with
  | 'A' :: rest => !rest.isEmpty && rest.all isDigitChar
  | _ => false

/-- Character class `[a-zA-Z0-9äöüÄÖÜß\s\-_&.]`. -/
def kundeChar (c : Char) : Bool :=
  (97 ≤ c.toNat && c.toNat ≤ 122) || (65 ≤ c.toNat && c.toNat ≤ 90) ||
  (48 ≤ c.toNat && c.toNat ≤ 57) ||
  c == 'ä' || c == 'ö' || c == 'ü' || c == 'Ä' || c == 'Ö' || c == 'Ü' || c == 'ß' ||
  isJsSpace c || c == '-' || c == '_' || c == '&' || c == '.'

/-- `/^[a-zA-Z0-9äöüÄÖÜß\s\-_&.]+$/`. -/
def patKunde (s : String) : Bool := !s.data.isEmpty && s.data.all kundeChar

/-- `/^\d+$/`. -/
def patDigits (s : String) : Bool := !s.data.isEmpty && s.data.all isDigitChar

/-- `/^[\d''\s]+$/`. -/
def patAuflage (s : String) : Bool :=
  !s.data.isEmpty && s.data.all (fun c => isDigitChar c || c == '\x27' || isJsSpace c)

/-- Character class `[A-Z0-9_-]`. -/
def upperCodeChar (c : Char) : Bool :=
  (65 ≤ c.toNat && c.toNat ≤ 90) || (48 ≤ c.toNat && c.toNat ≤ 57) || c == '_' || c == '-'

/-- `/^[A-Z0-9_-]+$/`. -/
def patUpperCode (s : String) : Bool := !s.data.isEmpty && s.data.all upperCodeChar

/-- Character class `[A-Za-z0-9_-]`. -/
def alnumCodeChar (c : Char) : Bool :=
  (65 ≤ c.toNat && c.toNat ≤ 90) || (97 ≤ c.toNat && c.toNat ≤ 122) ||
  (48 ≤ c.toNat && c.toNat ≤ 57) || c == '_' || c == '-'

/-- `/^[A-Za-z0-9_-]+$/`. -/
def patAlnumCode (s : String) : Bool := !s.data.isEmpty && s.data.all alnumCodeChar

/-- Character class `[a-zA-Z0-9äöüÄÖÜß\s\-_.]`. -/
def nameChar (c : Char) : Bool :=
  (97 ≤ c.toNat && c.toNat ≤ 122) || (65 ≤ c.toNat && c.toNat ≤ 90) ||
  (48 ≤ c.toNat && c.toNat ≤ 57) ||
  c == 'ä' || c == 'ö' || c == 'ü' || c == 'Ä' || c == 'Ö' || c == 'Ü' || c == 'ß' ||
  isJsSpace c || c == '-' || c == '_' || c == '.'

/-- `/^[a-zA-Z0-9äöüÄÖÜß\s\-_.]+$/`. -/
def patName (s : String) : Bool := !s.data.isEmpty && s.data.all nameChar

/-- `Validator.getValidationRules`: the static rule table. Unknown field
names get the empty rule (`this.rules[fieldName]` is `undefined`, the
spread yields `{}`, every check is skipped). -/
def getRule (fieldName : String) : Rule :=
  match fieldName with
  | "auftragsnummer" =>
    { required := true, pattern := some patAuftragsnummer, minLength := some 2,
      maxLength := some 20,
      message := some "Auftragsnummer muss mit \"A\" beginnen und Zahlen enthalten (z.B. A12345)" }
  | "kunde" =>
    { required := true, pattern := some patKunde, minLength := some 1, maxLength := some 50,
      message := some "Kundenname darf nur Buchstaben, Zahlen und die Zeichen - _ & . enthalten" }
  | "auftragsposition" =>
    { required := true, pattern := some patDigits, min := some 0, max := some 999,
      message := some "Auftragsposition muss eine Zahl zwischen 0 und 999 sein" }
  | "auflage" =>
    { required := true, pattern := some patAuflage, min := some 1, max := some 1000000,
      message := some "Auflage muss eine positive Zahl sein (z.B. 1\x27200)" }
  | "maschine" =>
    { required := true, pattern := some patUpperCode, minLength := some 1, maxLength := some 20,
      message := some "Maschine muss ausgewählt werden" }
  | "produkt" =>
    { required := true, pattern := some patUpperCode, minLength := some 1, maxLength := some 20,
      message := some "Produkt muss ausgewählt werden" }
  | "papierart" =>
    { required := true, enum := some ["gestrichen", "ungestrichen"],
      message := some "Papierart muss ausgewählt werden" }
  | "papiername" =>
    { required := true, pattern := some patAlnumCode, minLength := some 1, maxLength := some 30,
      message := some "Papiername muss ausgewählt werden" }
  | "machineName" =>
    { required := true, pattern := some patName, minLength := some 1, maxLength := some 30,
      message := some "Maschinenname darf nur Buchstaben, Zahlen und - _ . enthalten" }
  | "machineCode" =>
    { required := true, pattern := some patUpperCode, minLength := some 1, maxLength := some 10,
      message := some "Maschinencode darf nur Grossbuchstaben, Zahlen, _ und - enthalten" }
  | "productName" =>
    { required := true, pattern := some patName, minLength := some 1, maxLength := some 30,
      message := some "Produktname darf nur Buchstaben, Zahlen und - _ . enthalten" }
  | "productCode" =>
    { required := true, pattern := some patUpperCode, minLength := some 1, maxLength := some 10,
      message := some "Produktcode darf nur Grossbuchstaben, Zahlen, _ und - enthalten" }
  | "paperName" =>
    { required := true, pattern := some patName, minLength := some 1, maxLength := some 30,
      message := some "Papiername darf nur Buchstaben, Zahlen und - _ . enthalten" }
  | "paperCode" =>
    { required := true, pattern := some patAlnumCode, minLength := some 1, maxLength := some 15,
      message := some "Papiercode darf nur Buchstaben, Zahlen, _ und - enthalten" }
  | _ => {}

/-- `Validator.isEmpty`: `null`/`undefined` or a string empty after
trimming. -/
def isEmptyVal (v : Option String) : Bool :=
  match v with
  | none => true
  | some s => jsTrim s == ""

/-- `Validator.getFieldDisplayName`. -/
def displayName (fieldName : String) : String :=
  match fieldName with
  | "auftragsnummer" => "Auftragsnummer"
  | "kunde" => "Kunde"
  | "auftragsposition" => "Auftragsposition"
  | "maschine" => "Maschine"
  | "auflage" => "Auflage"
  | "produkt" => "Produkt"
  | "papierart" => "Papierart"
  | "papiername" => "Papiername"
  | "machineName" => "Maschinenname"
  | "machineCode" => "Maschinencode"
  | "productName" => "Produktname"
  | "productCode" => "Produktcode"
  | "paperName" => "Papiername"
  | "paperCode" => "Papiercode"
  | other => other

/-- `Validator.normalizeValue`. `toUpperCase` is applied only to values
that already passed an ASCII pattern, so the ASCII model `jsToUpper`
covers every reachable input. -/
def normalizeValue (fieldName value : String) : String :=
  match fieldName with
  | "kunde" => jsTrim value
  | "auftragsnummer" => String.mk (value.data.map jsToUpper)
  | "machineCode" => String.mk (value.data.map jsToUpper)
  | "productCode" => String.mk (value.data.map jsToUpper)
  | "auflage" => value
  | _ => jsTrim value

/-- JS `parseFloat` on the strings that can reach the numeric bounds check
of `validateField`: those have already passed a digits-only pattern, where
`parseFloat` is exact on this side of the comparisons against the small
rule bounds (0, 999). -/
def parseFloatForBounds (s : String) : Option Int :=
  if !s.data.isEmpty && s.data.all isDigitChar then some (digitsToNat s.data) else none

/-- `Validator.validateAuflage`: strip apostrophes/whitespace, require a
digit string, `parseInt`, then the 1 … 1 000 000 range. -/
def validateAuflage (value : String) : VResult :=
  let cleanValue := value.data.filter (fun c => !(c == '\x27') && !(isJsSpace c))
  if !(!cleanValue.isEmpty && cleanValue.all isDigitChar) then
    { valid := false, error := some "Auflage muss eine Zahl sein (z.B. 1\x27200 oder 1200)",
      code := some "NOT_NUMERIC" }
  else
    let numValue := digitsToNat cleanValue
    if numValue < 1 then
      { valid := false, error := some "Auflage muss mindestens 1 sein", code := some "TOO_SMALL" }
    else if numValue > 1000000 then
      { valid := false, error := some "Auflage darf maximal 1\x27000\x27000 sein",
        code := some "TOO_LARGE" }
    else { valid := true, value := some value }

/-- `Validator.validateAuftragsnummer`. -/
def validateAuftragsnummer (value : String) : VResult :=
  if !jsStartsWith value "A" then
    { valid := false, error := some "Auftragsnummer muss mit \"A\" beginnen",
      code := some "INVALID_PREFIX" }
  else if !patAuftragsnummer value then
    { valid := false, error := some "Auftragsnummer darf nur \"A\" gefolgt von Zahlen enthalten",
      code := some "INVALID_FORMAT" }
  else if value.length < 2 then
    { valid := false,
      error := some "Auftragsnummer muss mindestens eine Zahl nach \"A\" enthalten",
      code := some "TOO_SHORT" }
  else { valid := true, value := some value }

/-- The tail of `validateField` after the numeric bounds block: the
auflage special case, the enum check, the auftragsnummer special case,
and the success result. -/
def validateFieldTail (fieldName : String) (rules : Rule) (stringValue : String) : VResult :=
  if fieldName == "auflage" && !(validateAuflage stringValue).valid then
    validateAuflage stringValue
  else if (match rules.enum with
           | some es => !(es.contains stringValue)
           | none => false) then
    { valid := false,
      error := some (displayName fieldName ++ " muss einer der folgenden Werte sein: " ++
        String.intercalate ", " ((getRule fieldName).enum.getD [])),
      code := some "INVALID_ENUM" }
  else if fieldName == "auftragsnummer" && !(validateAuftragsnummer stringValue).valid then
    validateAuftragsnummer stringValue
  else
    { valid := true, value := some stringValue,
      normalizedValue := some (normalizeValue fieldName stringValue) }

/-- `Validator.validateField`, check for check in source order: required,
empty-optional, pattern, minLength, maxLength, numeric bounds (skipped for
`auflage`), then `validateFieldTail`. -/
def validateField (fieldName : String) (value : Option String) : VResult :=
  let rules := getRule fieldName
  if rules.required && isEmptyVal value then
    { valid := false, error := some (displayName fieldName ++ " ist erforderlich"),
      code := some "REQUIRED" }
  else if isEmptyVal value && !rules.required then
    { valid := true, value := value }
  else
    let stringValue := jsTrim (value.getD "")
    if (match rules.pattern with | some p => !(p stringValue) | none => false) then
      { valid := false,
        error := some (rules.message.getD (displayName fieldName ++ " hat ungültiges Format")),
        code := some "PATTERN" }
    else if (match rules.minLength with
             | some k => decide (stringValue.length < k)
             | none => false) then
      { valid := false,
        error := some (displayName fieldName ++ " muss mindestens " ++
          toString (rules.minLength.getD 0) ++ " Zeichen haben"),
        code := some "MIN_LENGTH" }
    else if (match rules.maxLength with
             | some k => decide (stringValue.length > k)
             | none => false) then
      { valid := false,
        error := some (displayName fieldName ++ " darf maximal " ++
          toString (rules.maxLength.getD 0) ++ " Zeichen haben"),
        code := some "MAX_LENGTH" }
    else if (rules.min.isSome || rules.max.isSome) && fieldName != "auflage" then
      match parseFloatForBounds stringValue with
      | none =>
        { valid := false, error := some (displayName fieldName ++ " muss eine Zahl sein"),
          code := some "NOT_NUMERIC" }
      | some numValue =>
        if (match rules.min with | some m => decide (numValue < m) | none => false) then
          { valid := false,
            error := some (displayName fieldName ++ " muss mindestens " ++
              intToString (rules.min.getD 0) ++ " sein"),
            code := some "MIN_VALUE" }
        else if (match rules.max with | some m => decide (numValue > m) | none => false) then
          { valid := false,
            error := some (displayName fieldName ++ " darf maximal " ++
              intToString (rules.max.getD 0) ++ " sein"),
            code := some "MAX_VALUE" }
        else validateFieldTail fieldName rules stringValue
    else validateFieldTail fieldName rules stringValue

/-- The field list `validateForm` iterates over. -/
def requiredFields : List String :=
  ["auftragsnummer", "kunde", "auftragsposition",
   "maschine", "auflage", "produkt", "papierart", "papiername"]

/-- `formData[field]` for the eight form fields. -/
def getField (fd : FormData) (field : String) : Option String :=
  match field with
  | "auftragsnummer" => fd.auftragsnummer
  | "kunde" => fd.kunde
  | "auftragsposition" => fd.auftragsposition
  | "maschine" => fd.maschine
  | "auflage" => fd.auflage
  | "produkt" => fd.produkt
  | "papierart" => fd.papierart
  | "papiername" => fd.papiername
  | _ => none

/-- One entry of `validateForm`'s `errors` array. -/
structure FormErr where
  field : String
  error : Option String
  code : Option String
  deriving Repr, DecidableEq

/-- Aggregate result of `validateForm` (the `summary` payload of the
source, derived data only, is not modelled). -/
structure FormResult where
  valid : Bool
  errors : List FormErr
  results : List (String × VResult)

/-- The `forEach` loop body of `validateForm`: validate each field in
order, recording its result and, when invalid, its error entry. -/
def collectValidation (fd : FormData) : List String → List (String × VResult) × List FormErr × Bool
  | [] => ([], [], true)
  | f :: rest =>
    let r := validateField f (getField fd f)
    let (results, errors, ok) := collectValidation fd rest
    ((f, r) :: results,
     (if r.valid then errors else { field := f, error := r.error, code := r.code } :: errors),
     ok && r.valid)

/-- `Validator.validateCrossFields`: always valid, never any errors. -/
def validateCrossFields (_fd : FormData) : Bool × List FormErr := (true, [])

/-- `Validator.validateForm`. -/
def validateForm (fd : FormData) : FormResult :=
  let (results, errors, ok) := collectValidation fd requiredFields
  let cross := validateCrossFields fd
  { valid := ok && cross.1, errors := errors ++ cross.2, results := results }

/-! ## File validation (Validator.validateFile / validateFileName) -/

/-- The metadata of a browser `File` object read by `validateFile`. -/
structure JsFile where
  size : Nat
  type : String
  name : String
  deriving Repr, DecidableEq

/-- `const maxSize = 100 * 1024 * 1024`. -/
def maxFileSize : Nat := 100 * 1024 * 1024

/-- The character class `[<>:"/\\|?*\x00-\x1f]` of `validateFileName`. -/
def invalidFileNameChar (c : Char) : Bool :=
  c == '<' || c == '>' || c == ':' || c == '"' || c == '/' || c == '\\' ||
  c == '|' || c == '?' || c == '*' || c.toNat ≤ 31

/-- The alternatives of `/^(CON|PRN|AUX|NUL|COM[1-9]|LPT[1-9])(\.|$)/i`. -/
def reservedBases : List String :=
  ["CON", "PRN", "AUX", "NUL",
   "COM1", "COM2", "COM3", "COM4", "COM5", "COM6", "COM7", "COM8", "COM9",
   "LPT1", "LPT2", "LPT3", "LPT4", "LPT5", "LPT6", "LPT7", "LPT8", "LPT9"]

/-- Test of the case-insensitive reserved-name regex: the upper-cased name
is a reserved base, or starts with one followed by a dot. -/
def isReservedName (fileName : String) : Bool :=
  let u := String.mk (fileName.data.map jsToUpper)
  reservedBases.any (fun b => u == b || jsStartsWith u (b ++ "."))

/-- `Validator.validateFileName`. -/
def validateFileName (fileName : String) : VResult :=
  if fileName.data.any invalidFileNameChar then
    { valid := false, error := some "Dateiname enthält ungültige Zeichen",
      code := some "INVALID_CHARACTERS" }
  else if isReservedName fileName then
    { valid := false, error := some "Dateiname ist ein reservierter Name",
      code := some "RESERVED_NAME" }
  else if fileName.length > 255 then
    { valid := false, error := some "Dateiname ist zu lang (max. 255 Zeichen)",
      code := some "TOO_LONG" }
  else { valid := true, value := some fileName }

/-- `const allowedTypes = ['application/pdf']`. -/
def pdfAllowedTypes : List String := ["application/pdf"]

/-- `Validator.validateFile`: null check, size ceiling, empty file, MIME
type, extension, then filename legality. The `FILE_TOO_LARGE` message
inlines `formatFileSize(104857600) = "100 MB"`. -/
def validateFile (file : Option JsFile) : VResult :=
  match file with
  | none =>
    { valid := false, error := some "Keine Datei ausgewählt", code := some "NO_FILE" }
  | some f =>
    if f.size > maxFileSize then
      { valid := false, error := some "Datei zu gross. Maximum: 100 MB",
        code := some "FILE_TOO_LARGE" }
    else if f.size == 0 then
      { valid := false, error := some "Datei ist leer", code := some "EMPTY_FILE" }
    else if !pdfAllowedTypes.contains f.type then
      { valid := false, error := some "Nur PDF-Dateien sind erlaubt",
        code := some "INVALID_FILE_TYPE" }
    else if !jsEndsWith (String.mk (f.name.data.map jsToLower)) ".pdf" then
      { valid := false, error := some "Datei muss die Endung .pdf haben",
        code := some "INVALID_FILE_EXTENSION" }
    else
      let fnv := validateFileName f.name
      if !fnv.valid then fnv else { valid := true }

/-! ## Split helper (JS `String.prototype.split` on a one-character
separator), used to state the segment claims. -/

/-- Split a character list at every occurrence of `sep`; like JS `split`,
the result always has one more part than there are separators. -/
def splitOnChar (sep : Char) : List Char → List (List Char)
  | [] => [[]]
  | c :: cs =>
    match splitOnChar sep cs with
    | [] => [[]]
    | r :: rs => if c = sep then [] :: r :: rs else (c :: r) :: rs

/-- JS `s.split(sep)` for a one-character separator string. -/
def jsSplit (s : String) (sep : Char) : List String :=
  (splitOnChar sep s.data).map String.mk

/-! ## Concrete records used in the example and counterexample theorems -/

/-- The spec's worked-example input record. -/
def exampleFormData : FormData :=
  { auftragsnummer := some "A12345", kunde := some "TestKunde",
    auftragsposition := some "1", maschine := some "CX75",
    auflage := some "1\x27200", produkt := some "BRFPP",
    papierart := some "ungestrichen", papiername := some "NoSat170" }

/-- A config with no lookup arrays at all. -/
def emptyConfig : Config := { machines := none, products := none, papers := none }

/-- A complete form record whose order number contains `#` characters. -/
def hashFormData : FormData :=
  { auftragsnummer := some "A1#b#c", kunde := some "K",
    auftragsposition := some "1", maschine := some "M",
    auflage := some "1\x27200", produkt := some "P",
    papierart := some "ungestrichen", papiername := some "N" }

/-! ## Helper lemmas: characters, digits, trimming, parsing -/

theorem isJsSpace_iff_mem (c : Char) : isJsSpace c = true ↔ c ∈ jsSpaceChars := by
  simp [isJsSpace]

theorem isJsSpace_false_of_digit (c : Char) (hc : isDigitChar c = true) :
    isJsSpace c = false := by
  cases hs : isJsSpace c with
  | false => rfl
  | true =>
    exfalso
    have hmem := (isJsSpace_iff_mem c).mp hs
    have hall : ∀ x ∈ jsSpaceChars, isDigitChar x = false := by decide
    rw [hall c hmem] at hc
    exact Bool.false_ne_true hc

theorem digitChar_toNat (d : Nat) (h : d < 10) : (Nat.digitChar d).toNat = 48 + d := by
  interval_cases d <;> rfl

theorem natToDigitsAux_ne_nil (fuel n : Nat) (h : n < fuel) : natToDigitsAux fuel n ≠ [] := by
  induction fuel generalizing n with
  | zero => omega
  | succ fuel ih =>
    rw [natToDigitsAux]
    split
    · simp
    · simp

theorem natToDigits_ne_nil (n : Nat) : natToDigits n ≠ [] :=
  natToDigitsAux_ne_nil (n + 1) n (Nat.lt_succ_self n)

theorem natToDigitsAux_bounds (fuel n : Nat) (h : n < fuel) :
    ∀ c ∈ natToDigitsAux fuel n, 48 ≤ c.toNat ∧ c.toNat ≤ 57 := by
  induction fuel generalizing n with
  | zero => omega
  | succ fuel ih =>
    rw [natToDigitsAux]
    split
    · rename_i hlt
      intro c hc
      rw [List.mem_singleton] at hc
      subst hc
      rw [digitChar_toNat n hlt]
      omega
    · rename_i hge
      intro c hc
      rcases List.mem_append.mp hc with h1 | h2
      · exact ih (n / 10) (by omega) c h1
      · rw [List.mem_singleton] at h2
        subst h2
        rw [digitChar_toNat _ (Nat.mod_lt _ (by omega))]
        omega

theorem natToDigits_bounds (n : Nat) :
    ∀ c ∈ natToDigits n, 48 ≤ c.toNat ∧ c.toNat ≤ 57 :=
  natToDigitsAux_bounds (n + 1) n (Nat.lt_succ_self n)

theorem natToDigits_isDigit (n : Nat) : ∀ c ∈ natToDigits n, isDigitChar c = true := by
  intro c hc
  have hb := natToDigits_bounds n c hc
  simp only [isDigitChar, Bool.and_eq_true, decide_eq_true_eq]
  omega

theorem digitsToNat_append (l : List Char) (c : Char) :
    digitsToNat (l ++ [c]) = 10 * digitsToNat l + (c.toNat - 48) := by
  simp [digitsToNat, List.foldl_append]

theorem digitsToNat_natToDigitsAux (fuel n : Nat) (h : n < fuel) :
    digitsToNat (natToDigitsAux fuel n) = n := by
  induction fuel generalizing n with
  | zero => omega
  | succ fuel ih =>
    rw [natToDigitsAux]
    split
    · rename_i hlt
      have := digitChar_toNat n hlt
      simp [digitsToNat]
      omega
    · rename_i hge
      rw [digitsToNat_append, ih (n / 10) (by omega),
        digitChar_toNat _ (Nat.mod_lt _ (by omega))]
      omega

theorem digitsToNat_natToDigits (n : Nat) : digitsToNat (natToDigits n) = n :=
  digitsToNat_natToDigitsAux (n + 1) n (Nat.lt_succ_self n)

theorem jsParseInt_all_digits (l : List Char) (hne : l ≠ [])
    (hd : ∀ c ∈ l, isDigitChar c = true) :
    jsParseInt (String.mk l) = some (Int.ofNat (digitsToNat l)) := by
  obtain ⟨c, cs, rfl⟩ := List.exists_cons_of_ne_nil hne
  have hc := hd c (List.mem_cons_self c cs)
  have hds : (c :: cs).dropWhile isJsSpace = c :: cs := by
    rw [List.dropWhile_cons, isJsSpace_false_of_digit c hc]
    simp
  have hlv : leadingDigitsVal (c :: cs) = some (digitsToNat (c :: cs)) := by
    unfold leadingDigitsVal
    rw [List.takeWhile_eq_self_iff.mpr hd]
    simp
  have hdata : (String.mk (c :: cs)).data = c :: cs := rfl
  unfold jsParseInt
  rw [hdata, hds]
  split
  · rename_i rest heq
    injection heq with h1 _
    subst h1
    simp [isDigitChar] at hc
  · rename_i rest heq
    injection heq with h1 _
    subst h1
    simp [isDigitChar] at hc
  · rw [hlv]
    rfl

theorem filter_groupRevThrees (p : Char → Bool) (hp : p '\x27' = false) (l : List Char) :
    (groupRevThrees l).filter p = l.filter p := by
  induction l using groupRevThrees.induct with
  | case1 d1 d2 d3 d4 rest ih =>
    rw [groupRevThrees]
    simp [List.filter_cons, hp, ih]
  | case2 l h =>
    rw [groupRevThrees.eq_def]
    split
    · exact absurd rfl (h _ _ _ _ _)
    · rfl

theorem clean_of_digit (c : Char) (hc : isDigitChar c = true) :
    (!(c == '\x27') && !(isJsSpace c)) = true := by
  rw [isJsSpace_false_of_digit c hc]
  simp only [Bool.not_false, Bool.and_true, Bool.not_eq_true']
  rw [beq_eq_false_iff_ne]
  intro h
  subst h
  simp [isDigitChar] at hc

theorem format_filter_clean (n : Nat) :
    (formatSwissNumber n).data.filter (fun c => !(c == '\x27') && !(isJsSpace c)) =
      natToDigits n := by
  show ((groupRevThrees (natToDigits n).reverse).reverse).filter _ = _
  rw [List.filter_reverse, filter_groupRevThrees _ (by decide), List.filter_reverse,
    List.reverse_reverse]
  exact List.filter_eq_self.mpr (fun c hc => clean_of_digit c (natToDigits_isDigit n c hc))

theorem buildAuflageTeil_format (n : Nat) :
    buildAuflageTeil (formatSwissNumber n) = some (String.mk (natToDigits n)) := by
  unfold buildAuflageTeil
  rw [show (formatSwissNumber n).data.filter (fun c => !(c == '\x27') && !(isJsSpace c)) =
    natToDigits n from format_filter_clean n]
  show (match jsParseInt (String.mk (natToDigits n)) with
        | none => none
        | some n => some (intToString n)) = some (String.mk (natToDigits n))
  rw [jsParseInt_all_digits _ (natToDigits_ne_nil n) (natToDigits_isDigit n)]
  rw [digitsToNat_natToDigits]
  simp [intToString]

theorem parseSwiss_format (n : Nat) :
    parseSwissNumber (formatSwissNumber n) = some (Int.ofNat n) := by
  unfold parseSwissNumber
  rw [format_filter_clean n]
  rw [jsParseInt_all_digits _ (natToDigits_ne_nil n) (natToDigits_isDigit n),
    digitsToNat_natToDigits]

theorem dropWhile_eq_self_of_all (p : Char → Bool) (l : List Char)
    (h : ∀ c ∈ l, p c = false) : l.dropWhile p = l := by
  cases l with
  | nil => rfl
  | cons c cs =>
    rw [List.dropWhile_cons, h c (List.mem_cons_self c cs)]
    simp

theorem listTrim_of_no_space (l : List Char) (h : ∀ c ∈ l, isJsSpace c = false) :
    listTrim l = l := by
  unfold listTrim
  rw [dropWhile_eq_self_of_all _ _ h,
    dropWhile_eq_self_of_all _ _ (fun c hc => h c (List.mem_reverse.mp hc)),
    List.reverse_reverse]

theorem mem_of_mem_listTrim (c : Char) (l : List Char) (h : c ∈ listTrim l) : c ∈ l := by
  unfold listTrim at h
  rw [List.mem_reverse] at h
  have h1 := (List.dropWhile_suffix isJsSpace).sublist.mem h
  rw [List.mem_reverse] at h1
  exact (List.dropWhile_suffix isJsSpace).sublist.mem h1

theorem mem_groupRevThrees (c : Char) (l : List Char) (h : c ∈ groupRevThrees l) :
    c ∈ l ∨ c = '\x27' := by
  induction l using groupRevThrees.induct with
  | case1 d1 d2 d3 d4 rest ih =>
    rw [groupRevThrees] at h
    rcases List.mem_cons.mp h with rfl | h
    · exact Or.inl (by simp)
    rcases List.mem_cons.mp h with rfl | h
    · exact Or.inl (by simp)
    rcases List.mem_cons.mp h with rfl | h
    · exact Or.inl (by simp)
    rcases List.mem_cons.mp h with rfl | h
    · exact Or.inr rfl
    rcases ih h with h2 | h2
    · exact Or.inl (by simp [List.mem_cons.mp h2])
    · exact Or.inr h2
  | case2 l hni =>
    rw [groupRevThrees.eq_def] at h
    split at h
    · exact absurd rfl (hni _ _ _ _ _)
    · exact Or.inl h

theorem formatSwiss_chars (n : Nat) :
    ∀ c ∈ (formatSwissNumber n).data, isDigitChar c = true ∨ c = '\x27' := by
  intro c hc
  have hc2 : c ∈ groupRevThrees (natToDigits n).reverse := List.mem_reverse.mp hc
  rcases mem_groupRevThrees c _ hc2 with h | h
  · exact Or.inl (natToDigits_isDigit n c (List.mem_reverse.mp h))
  · exact Or.inr h

theorem formatSwiss_no_space (n : Nat) :
    ∀ c ∈ (formatSwissNumber n).data, isJsSpace c = false := by
  intro c hc
  rcases formatSwiss_chars n c hc with h | h
  · exact isJsSpace_false_of_digit c h
  · subst h
    decide

theorem jsTrim_formatSwiss (n : Nat) :
    jsTrim (formatSwissNumber n) = formatSwissNumber n := by
  unfold jsTrim
  rw [listTrim_of_no_space _ (formatSwiss_no_space n)]

theorem formatSwiss_ne_empty (n : Nat) : formatSwissNumber n ≠ "" := by
  intro h
  have h2 := format_filter_clean n
  rw [h] at h2
  exact natToDigits_ne_nil n h2.symm

theorem machineCode_id (v : String) (config : Config) : getMachineCode v config = v := by
  unfold getMachineCode findByCode
  cases config.machines with
  | none => rfl
  | some l =>
    show (match l.find? (fun e => e.code == v) with
          | some m => m.code
          | none => v) = v
    cases hf : l.find? (fun e => e.code == v) with
    | none => rfl
    | some m =>
      show m.code = v
      have h2 := List.find?_some hf
      exact eq_of_beq h2

theorem productCode_id (v : String) (config : Config) : getProductCode v config = v := by
  unfold getProductCode findByCode
  cases config.products with
  | none => rfl
  | some l =>
    show (match l.find? (fun e => e.code == v) with
          | some m => m.code
          | none => v) = v
    cases hf : l.find? (fun e => e.code == v) with
    | none => rfl
    | some m =>
      show m.code = v
      have h2 := List.find?_some hf
      exact eq_of_beq h2

theorem paperCode_id (v : String) (config : Config) : getPaperCode v config = v := by
  unfold getPaperCode findByCode
  cases config.papers with
  | none => rfl
  | some l =>
    show (match l.find? (fun e => e.code == v) with
          | some m => m.code
          | none => v) = v
    cases hf : l.find? (fun e => e.code == v) with
    | none => rfl
    | some m =>
      show m.code = v
      have h2 := List.find?_some hf
      exact eq_of_beq h2

theorem splitOnChar_ne_nil (sep : Char) (l : List Char) : splitOnChar sep l ≠ [] := by
  cases l with
  | nil => simp [splitOnChar]
  | cons c cs =>
    rw [splitOnChar]
    split
    · simp
    · split <;> simp

theorem splitOnChar_append (sep : Char) (xs ys : List Char) (h : ∀ c ∈ xs, c ≠ sep) :
    splitOnChar sep (xs ++ sep :: ys) = xs :: splitOnChar sep ys := by
  induction xs with
  | nil =>
    rw [List.nil_append, splitOnChar]
    cases hys : splitOnChar sep ys with
    | nil => exact absurd hys (splitOnChar_ne_nil sep ys)
    | cons r rs =>
      show (if sep = sep then [] :: r :: rs else (sep :: r) :: rs) = [] :: r :: rs
      rw [if_pos rfl]
  | cons x xs ih =>
    have hx : x ≠ sep := h x (List.mem_cons_self x xs)
    have ih2 := ih (fun c hc => h c (List.mem_cons_of_mem _ hc))
    rw [List.cons_append, splitOnChar, ih2]
    show (if x = sep then [] :: xs :: splitOnChar sep ys
          else (x :: xs) :: splitOnChar sep ys) = (x :: xs) :: splitOnChar sep ys
    rw [if_neg hx]

theorem mem_collapseAux (l : List Char) (b : Bool) (c : Char)
    (h : c ∈ collapseAux b l) : c ∈ l ∨ c = '-' := by
  induction l generalizing b with
  | nil => simp [collapseAux] at h
  | cons c2 cs ih =>
    rw [collapseAux] at h
    by_cases hsp : isJsSpace c2 = true
    · rw [if_pos hsp] at h
      cases b with
      | true =>
        rw [if_pos rfl] at h
        rcases ih true h with h2 | h2
        · exact Or.inl (List.mem_cons_of_mem _ h2)
        · exact Or.inr h2
      | false =>
        rw [if_neg (by simp)] at h
        rcases List.mem_cons.mp h with rfl | h2
        · exact Or.inr rfl
        rcases ih true h2 with h3 | h3
        · exact Or.inl (List.mem_cons_of_mem _ h3)
        · exact Or.inr h3
    · rw [if_neg hsp] at h
      rcases List.mem_cons.mp h with rfl | h2
      · exact Or.inl (List.mem_cons_self _ _)
      rcases ih false h2 with h3 | h3
      · exact Or.inl (List.mem_cons_of_mem _ h3)
      · exact Or.inr h3

theorem mem_collapseSpaceRuns (c : Char) (l : List Char) (h : c ∈ collapseSpaceRuns l) :
    c ∈ l ∨ c = '-' :=
  mem_collapseAux l false c h

theorem sanitizeText_chars (s : String) :
    ∀ c ∈ (sanitizeText s).data, sanitizeAllowed c = true := by
  intro c hc
  have hc2 : c ∈ collapseSpaceRuns ((listTrim s.data).filter sanitizeAllowed) :=
    List.take_subset _ _ hc
  rcases mem_collapseSpaceRuns c _ hc2 with h1 | h1
  · exact (List.mem_filter.mp h1).2
  · subst h1
    decide

theorem sanitizeText_length (s : String) : (sanitizeText s).length ≤ 20 := by
  show ((collapseSpaceRuns ((listTrim s.data).filter sanitizeAllowed)).take 20).length ≤ 20
  rw [List.length_take]
  exact Nat.min_le_left _ _

theorem char_ofNat_toNat (m : Nat) (h : m < 55296) : (Char.ofNat m).toNat = m := by
  unfold Char.ofNat
  rw [dif_pos (Or.inl h)]
  rfl

theorem jsToLower_ne_hash (c : Char) (h : c ≠ '#') : jsToLower c ≠ '#' := by
  unfold jsToLower
  split_ifs with h1 h2
  · intro he
    have h3 := congrArg Char.toNat he
    rw [char_ofNat_toNat _ (by omega)] at h3
    have h35 : ('#' : Char).toNat = 35 := rfl
    omega
  · intro he
    have h3 := congrArg Char.toNat he
    rw [char_ofNat_toNat _ (by omega)] at h3
    have h35 : ('#' : Char).toNat = 35 := rfl
    omega
  · exact h

theorem fieldOk_eq_not_isEmpty (v : Option String) : fieldOk v = !isEmptyVal v := by
  cases v with
  | none => rfl
  | some s =>
    show (decide ¬(jsTrim s = "")) = !(jsTrim s == "")
    by_cases h : jsTrim s = "" <;> simp [h]

/-! ## Claim theorems -/

/-- C1: for the spec's worked-example record (with `auflage` written
`1'200`) and any config — in particular any config whose machines,
products and papers lists contain entries with codes `CX75`, `BRFPP` and
`NoSat170` — `ProductCodeGenerator.generate` returns exactly
`A12345-1#TestKunde-BRFPP#CX75_u_s_NoSat170#1200#D-NoSat170#`. -/
theorem generate_worked_example (config : Config) :
    generate exampleFormData config =
      "A12345-1#TestKunde-BRFPP#CX75_u_s_NoSat170#1200#D-NoSat170#" := by
  have key : generate exampleFormData config =
      assembleCode (buildAuftragsTeil "A12345" "1")
        (buildKundenTeil "TestKunde" "BRFPP" config)
        (buildMaschineTeil "CX75" "ungestrichen" "NoSat170" config)
        "1200" (buildPapierTeil "NoSat170" config) := rfl
  rw [key]
  unfold assembleCode buildAuftragsTeil buildKundenTeil buildMaschineTeil buildPapierTeil
  simp only [machineCode_id, productCode_id, paperCode_id]
  decide

/-- C2: `generate` fails soft on incomplete input — whenever at least one
of the eight required fields is absent/null or empty after trimming, it
returns the empty string for every config (and, being total, raises no
error). -/
theorem generate_empty_on_missing (fd : FormData) (config : Config)
    (h : (isEmptyVal fd.auftragsnummer || isEmptyVal fd.kunde ||
          isEmptyVal fd.auftragsposition || isEmptyVal fd.maschine ||
          isEmptyVal fd.auflage || isEmptyVal fd.produkt ||
          isEmptyVal fd.papierart || isEmptyVal fd.papiername) = true) :
    generate fd config = "" := by
  have hv : validateInput fd = false := by
    cases hvi : validateInput fd with
    | false => rfl
    | true =>
      exfalso
      unfold validateInput at hvi
      simp only [Bool.and_eq_true] at hvi
      obtain ⟨⟨⟨⟨⟨⟨⟨h1, h2⟩, h3⟩, h4⟩, h5⟩, h6⟩, h7⟩, h8⟩ := hvi
      rw [fieldOk_eq_not_isEmpty, Bool.not_eq_true'] at h1 h2 h3 h4 h5 h6 h7 h8
      simp [h1, h2, h3, h4, h5, h6, h7, h8] at h
  unfold generate
  rw [hv]
  rfl

theorem generate_empty_on_missing_witness :
    generate { exampleFormData with kunde := none } emptyConfig = "" :=
  generate_empty_on_missing _ _ (by decide)

/-- C4: quantity formatting round-trips — for every `n` in the
exactly-representable integer range, stripping the Swiss thousands
separators from `formatSwissNumber n` and re-parsing with
`parseSwissNumber` yields `n` back. -/
theorem swissNumber_roundtrip (n : Nat) (_h : n ≤ 2 ^ 53) :
    parseSwissNumber (formatSwissNumber n) = some (Int.ofNat n) :=
  parseSwiss_format n

theorem swissNumber_roundtrip_witness :
    1200 ≤ 2 ^ 53 ∧ parseSwissNumber (formatSwissNumber 1200) = some (Int.ofNat 1200) :=
  ⟨by norm_num, swissNumber_roundtrip 1200 (by norm_num)⟩

/-- C7: `Validator.validateFile` rejects a zero-byte file with code
`EMPTY_FILE`, and a file within the 100 MB ceiling whose MIME type is not
`application/pdf` with code `INVALID_FILE_TYPE`. -/
theorem validateFile_rejections :
    (∀ f : JsFile, f.size = 0 →
      (validateFile (some f)).valid = false ∧
      (validateFile (some f)).code = some "EMPTY_FILE") ∧
    (∀ f : JsFile, 0 < f.size → f.size ≤ maxFileSize → f.type ≠ "application/pdf" →
      (validateFile (some f)).valid = false ∧
      (validateFile (some f)).code = some "INVALID_FILE_TYPE") := by
  constructor
  · intro f h0
    have h1 : ¬ f.size > maxFileSize := by rw [h0]; decide
    constructor <;> simp [validateFile, h0, h1]
  · intro f hpos hle htype
    have h1 : ¬ f.size > maxFileSize := Nat.not_lt.mpr hle
    have h2 : f.size ≠ 0 := by omega
    constructor <;> simp [validateFile, h1, h2, pdfAllowedTypes, htype]

theorem validateFile_rejections_witness :
    ((validateFile (some { size := 0, type := "application/pdf", name := "a.pdf" })).valid =
        false ∧
      (validateFile (some { size := 0, type := "application/pdf", name := "a.pdf" })).code =
        some "EMPTY_FILE") ∧
    ((validateFile (some { size := 5, type := "text/plain", name := "a.pdf" })).valid = false ∧
      (validateFile (some { size := 5, type := "text/plain", name := "a.pdf" })).code =
        some "INVALID_FILE_TYPE") :=
  ⟨validateFile_rejections.1 _ rfl,
   validateFile_rejections.2 _ (by decide) (by decide) (by decide)⟩

/-- C8: the customer component of the generated code is
`sanitizeText kunde` (the text `buildKundenTeil` places before its `-`),
and for every input it is at most 20 characters long and drawn entirely
from the allow list `a-z A-Z 0-9 ä ö ü Ä Ö Ü ß - _`. -/
theorem kunde_sanitized (kunde produkt : String) (config : Config) :
    buildKundenTeil kunde produkt config =
      sanitizeText kunde ++ "-" ++ getProductCode produkt config ∧
    (sanitizeText kunde).length ≤ 20 ∧
    (sanitizeText kunde).data.all sanitizeAllowed = true := by
  refine ⟨rfl, sanitizeText_length kunde, ?_⟩
  rw [List.all_eq_true]
  exact fun c hc => sanitizeText_chars kunde c hc

/-- C9 (counterexample): `toString` is neither mapped category and is
non-empty, yet the source does not return `t_s` for it — the bracket
access `typeMap['toString']` finds the truthy inherited
`Object.prototype.toString` member and `||` returns it. -/
theorem paperTypeCode_prototype_counterexample :
    ("toString" : String) ≠ "gestrichen" ∧ ("toString" : String) ≠ "ungestrichen" ∧
    ("toString" : String) ≠ "" ∧
    getPaperTypeCode "toString" ≠ String.mk [jsToLower 't'] ++ "_s" := by
  decide

/-- C9 (amended): `getPaperTypeCode` maps `gestrichen` to `g_s` and
`ungestrichen` to `u_s`; any other non-empty value that is not a property
name inherited from `Object.prototype`, and whose first character lies in
the ASCII/Latin-1 range (where the modelled `toLowerCase` is exact), is
mapped to the lowercased first character followed by `_s`. -/
theorem paperTypeCode_mapping :
    getPaperTypeCode "gestrichen" = "g_s" ∧ getPaperTypeCode "ungestrichen" = "u_s" ∧
    ∀ (s : String) (c : Char) (cs : List Char),
      s.data = c :: cs → s ≠ "gestrichen" → s ≠ "ungestrichen" →
      s ∉ objectPrototypeKeys → c.toNat ≤ 255 →
      getPaperTypeCode s = String.mk [jsToLower c] ++ "_s" := by
  refine ⟨rfl, rfl, ?_⟩
  intro s c cs hdata h1 h2 h3 _h4
  unfold getPaperTypeCode
  rw [if_neg h1, if_neg h2, if_neg h3, hdata]

theorem paperTypeCode_mapping_witness :
    "matt" ∉ objectPrototypeKeys ∧ ('m' : Char).toNat ≤ 255 ∧
    getPaperTypeCode "matt" = String.mk [jsToLower 'm'] ++ "_s" :=
  ⟨by decide, by decide,
   paperTypeCode_mapping.2.2 "matt" 'm' "att".data rfl (by decide) (by decide)
     (by decide) (by decide)⟩

/-- C10: the config lookups are the identity and never fail — for every
value and every config (lookup arrays present or not), `getMachineCode`,
`getProductCode` and `getPaperCode` return the input value unchanged. -/
theorem configLookup_identity (v : String) (config : Config) :
    getMachineCode v config = v ∧ getProductCode v config = v ∧ getPaperCode v config = v :=
  ⟨machineCode_id v config, productCode_id v config, paperCode_id v config⟩

/-- C6 (counterexample): the empty string does not match `/^A\d+$/`, yet
`validateField('auftragsnummer', "")` reports code `REQUIRED`, not
`PATTERN` — the required check fires before the pattern check. -/
theorem auftragsnummer_pattern_counterexample :
    patAuftragsnummer "" = false ∧
    (validateField "auftragsnummer" (some "")).valid = false ∧
    (validateField "auftragsnummer" (some "")).code ≠ some "PATTERN" ∧
    (validateField "auftragsnummer" (some "")).code = some "REQUIRED" := by
  decide

/-- C6 (amended): for every value that is non-empty after trimming and
whose trimmed value does not match `/^A\d+$/`,
`validateField('auftragsnummer', value)` returns a failure result with
code `PATTERN`. -/
theorem auftragsnummer_pattern_rejection (s : String)
    (hne : jsTrim s ≠ "") (hpat : patAuftragsnummer (jsTrim s) = false) :
    (validateField "auftragsnummer" (some s)).valid = false ∧
    (validateField "auftragsnummer" (some s)).code = some "PATTERN" := by
  have hempty : isEmptyVal (some s) = false := by
    simp only [isEmptyVal]
    exact beq_eq_false_iff_ne.mpr hne
  constructor <;> simp [validateField, hempty, hpat, getRule]

theorem auftragsnummer_pattern_rejection_witness :
    jsTrim "B123" ≠ "" ∧ patAuftragsnummer (jsTrim "B123") = false ∧
    ((validateField "auftragsnummer" (some "B123")).valid = false ∧
      (validateField "auftragsnummer" (some "B123")).code = some "PATTERN") :=
  ⟨by decide, by decide, auftragsnummer_pattern_rejection "B123" (by decide) (by decide)⟩

theorem collectValidation_results (fd : FormData) (fields : List String) :
    (collectValidation fd fields).1 =
      fields.map (fun f => (f, validateField f (getField fd f))) := by
  induction fields with
  | nil => rfl
  | cons f rest ih => simp [collectValidation, ih]

theorem collectValidation_errors (fd : FormData) (fields : List String) :
    (collectValidation fd fields).2.1 =
      fields.filterMap (fun f =>
        if (validateField f (getField fd f)).valid then none
        else some { field := f, error := (validateField f (getField fd f)).error,
                    code := (validateField f (getField fd f)).code }) := by
  induction fields with
  | nil => rfl
  | cons f rest ih =>
    by_cases hr : (validateField f (getField fd f)).valid = true <;>
      simp [collectValidation, List.filterMap_cons, hr, ih]

theorem collectValidation_ok (fd : FormData) (fields : List String) :
    (collectValidation fd fields).2.2 =
      fields.all (fun f => (validateField f (getField fd f)).valid) := by
  induction fields with
  | nil => rfl
  | cons f rest ih =>
    simp only [collectValidation, ih, List.all_cons]
    exact Bool.and_comm _ _

theorem validateForm_eq (fd : FormData) :
    validateForm fd =
      { valid := (collectValidation fd requiredFields).2.2,
        errors := (collectValidation fd requiredFields).2.1,
        results := (collectValidation fd requiredFields).1 } := by
  unfold validateForm validateCrossFields
  rcases hc : collectValidation fd requiredFields with ⟨res, errs, ok⟩
  simp

/-- C5: `validateForm` evaluates `validateField` on all eight fields in
order (its `results` list one entry per field), its `errors` list holds
exactly one entry — carrying that field's error message and code — for
each field whose `validateField` result is invalid, and its `valid` flag
is true exactly when the `errors` list is empty. -/
theorem validateForm_aggregates (fd : FormData) :
    (validateForm fd).results =
      requiredFields.map (fun f => (f, validateField f (getField fd f))) ∧
    (validateForm fd).errors =
      requiredFields.filterMap (fun f =>
        if (validateField f (getField fd f)).valid then none
        else some { field := f, error := (validateField f (getField fd f)).error,
                    code := (validateField f (getField fd f)).code }) ∧
    ((validateForm fd).valid = true ↔ (validateForm fd).errors = []) := by
  rw [validateForm_eq]
  refine ⟨collectValidation_results fd requiredFields,
    collectValidation_errors fd requiredFields, ?_⟩
  rw [collectValidation_ok fd requiredFields, collectValidation_errors fd requiredFields]
  rw [List.all_eq_true, List.filterMap_eq_nil_iff]
  constructor
  · intro hall f hf
    rw [if_pos (hall f hf)]
  · intro hnil f hf
    have h2 := hnil f hf
    by_cases hv : (validateField f (getField fd f)).valid = true
    · exact hv
    · rw [if_neg hv] at h2
      exact absurd h2 (by simp)

/-- C3 (counterexample): a complete record whose order number itself
contains `#` characters satisfies the claim's hypotheses (all eight
fields non-empty, `auflage` the Swiss-formatted rendering of 1200), yet
the fourth `#`-separated segment of the generated code is `K-P`, not
`1200` — the extra separators shift the segments. -/
theorem auflage_fourth_segment_counterexample :
    validateInput hashFormData = true ∧
    hashFormData.auflage = some (formatSwissNumber 1200) ∧
    (jsSplit (generate hashFormData emptyConfig) '#').getD 3 "" ≠ "1200" ∧
    (jsSplit (generate hashFormData emptyConfig) '#').getD 3 "" = "K-P" := by
  decide

theorem hash_not_mem_append (s t : String) (hs : '#' ∉ s.data) (ht : '#' ∉ t.data) :
    '#' ∉ (s ++ t).data := by
  rw [String.data_append]
  simp [hs, ht]

theorem hash_not_mem_jsTrim (s : String) (hs : '#' ∉ s.data) : '#' ∉ (jsTrim s).data :=
  fun h => hs (mem_of_mem_listTrim _ _ h)

theorem hash_not_mem_sanitize (s : String) : '#' ∉ (sanitizeText s).data := by
  intro h
  exact absurd (sanitizeText_chars s _ h) (by decide)

theorem hash_not_mem_digits (n : Nat) : '#' ∉ natToDigits n := by
  intro h
  have hb := natToDigits_bounds n _ h
  have h35 : ('#' : Char).toNat = 35 := rfl
  omega

theorem hash_not_mem_auftragsTeil (a p : String) (ha : '#' ∉ a.data) (hp : '#' ∉ p.data) :
    '#' ∉ (buildAuftragsTeil a p).data := by
  have h1 : '#' ∉ (jsTrim a).data := hash_not_mem_jsTrim a ha
  have h2 : '#' ∉ (jsTrim p).data := hash_not_mem_jsTrim p hp
  show '#' ∉ ((if jsStartsWith (jsTrim a) "A" then jsTrim a else "A" ++ jsTrim a) ++
    "-" ++ jsTrim p).data
  by_cases hsw : jsStartsWith (jsTrim a) "A" = true
  · rw [if_pos hsw]
    exact hash_not_mem_append _ _ (hash_not_mem_append _ _ h1 (by decide)) h2
  · rw [if_neg hsw]
    exact hash_not_mem_append _ _
      (hash_not_mem_append _ _ (hash_not_mem_append _ _ (by decide) h1) (by decide)) h2

theorem hash_not_mem_kundenTeil (k pr : String) (config : Config) (hpr : '#' ∉ pr.data) :
    '#' ∉ (buildKundenTeil k pr config).data := by
  show '#' ∉ (sanitizeText k ++ "-" ++ getProductCode pr config).data
  rw [productCode_id]
  exact hash_not_mem_append _ _
    (hash_not_mem_append _ _ (hash_not_mem_sanitize k) (by decide)) hpr

theorem hash_not_mem_paperType (pa : String) (hpa : '#' ∉ pa.data) :
    '#' ∉ (getPaperTypeCode pa).data := by
  unfold getPaperTypeCode
  by_cases h1 : pa = "gestrichen"
  · rw [if_pos h1]
    decide
  rw [if_neg h1]
  by_cases h2 : pa = "ungestrichen"
  · rw [if_pos h2]
    decide
  rw [if_neg h2]
  by_cases h3 : pa ∈ objectPrototypeKeys
  · rw [if_pos h3]
    exact hash_not_mem_append _ _ (hash_not_mem_append _ _ (by decide) hpa) (by decide)
  rw [if_neg h3]
  cases hd : pa.data with
  | nil => decide
  | cons c cs =>
    show '#' ∉ (String.mk [jsToLower c] ++ "_s").data
    have hc : c ≠ '#' := by
      intro he
      exact hpa (he ▸ (hd ▸ List.mem_cons_self c cs))
    intro hmem
    rw [String.data_append] at hmem
    rcases List.mem_append.mp hmem with h3 | h3
    · rw [List.mem_singleton] at h3
      exact jsToLower_ne_hash c hc h3.symm
    · exact absurd h3 (by decide)

theorem hash_not_mem_maschineTeil (m pa pn : String) (config : Config)
    (hm : '#' ∉ m.data) (hpa : '#' ∉ pa.data) (hpn : '#' ∉ pn.data) :
    '#' ∉ (buildMaschineTeil m pa pn config).data := by
  show '#' ∉ (getMachineCode m config ++ "_" ++ getPaperTypeCode pa ++ "_" ++
    getPaperCode pn config).data
  rw [machineCode_id, paperCode_id]
  exact hash_not_mem_append _ _
    (hash_not_mem_append _ _
      (hash_not_mem_append _ _ (hash_not_mem_append _ _ hm (by decide))
        (hash_not_mem_paperType pa hpa)) (by decide)) hpn

theorem generate_parts (a k p m au pr pa pn : String) (config : Config)
    (hvi : validateInput ⟨some a, some k, some p, some m, some au, some pr,
      some pa, some pn⟩ = true)
    (s4 : String) (hau : buildAuflageTeil au = some s4) :
    generate ⟨some a, some k, some p, some m, some au, some pr, some pa, some pn⟩ config =
      assembleCode (buildAuftragsTeil a p) (buildKundenTeil k pr config)
        (buildMaschineTeil m pa pn config) s4 (buildPapierTeil pn config) := by
  unfold generate
  rw [hvi]
  show (match buildAuflageTeil au with
        | none => ""
        | some auflageTeil =>
          assembleCode (buildAuftragsTeil a p) (buildKundenTeil k pr config)
            (buildMaschineTeil m pa pn config) auflageTeil (buildPapierTeil pn config)) = _
  rw [hau]

theorem fourth_segment (p1 p2 p3 p4 p5 : String)
    (h1 : '#' ∉ p1.data) (h2 : '#' ∉ p2.data) (h3 : '#' ∉ p3.data) (h4 : '#' ∉ p4.data) :
    (jsSplit (assembleCode p1 p2 p3 p4 p5) '#').getD 3 "" = p4 := by
  have g1 : ∀ c ∈ p1.data, c ≠ '#' := fun c hc he => h1 (he ▸ hc)
  have g2 : ∀ c ∈ p2.data, c ≠ '#' := fun c hc he => h2 (he ▸ hc)
  have g3 : ∀ c ∈ p3.data, c ≠ '#' := fun c hc he => h3 (he ▸ hc)
  have g4 : ∀ c ∈ p4.data, c ≠ '#' := fun c hc he => h4 (he ▸ hc)
  unfold jsSplit assembleCode
  have hd : (p1 ++ "#" ++ p2 ++ "#" ++ p3 ++ "#" ++ p4 ++ "#" ++ p5 ++ "#").data =
      p1.data ++ '#' :: (p2.data ++ '#' :: (p3.data ++ '#' :: (p4.data ++ '#' ::
        (p5.data ++ ['#'])))) := by
    simp [String.data_append, List.append_assoc,
      show ("#" : String).data = ['#'] from rfl]
  rw [hd, splitOnChar_append '#' p1.data _ g1, splitOnChar_append '#' p2.data _ g2,
    splitOnChar_append '#' p3.data _ g3, splitOnChar_append '#' p4.data _ g4]
  rfl

/-- C3 (amended): for every complete form record whose `auflage` is the
Swiss-formatted rendering of a positive integer `n` in the
exactly-representable range `n ≤ 2 ^ 53` (above that JS `parseInt` rounds
to a double, and from 1e21 `Number.toString` switches to exponential
notation), and whose other unsanitized fields (order number, position,
machine, product, paper type, paper name) contain no `#` character, the
fourth `#`-separated segment of the generated code is exactly the plain
decimal digit string of `n`, grouping separators removed. -/
theorem auflage_fourth_segment (a k p m pr pa pn : String) (n : Nat) (config : Config)
    (_hn : 1 ≤ n) (_hn53 : n ≤ 2 ^ 53)
    (ha : jsTrim a ≠ "") (hk : jsTrim k ≠ "") (hp : jsTrim p ≠ "")
    (hm : jsTrim m ≠ "") (hpr : jsTrim pr ≠ "") (hpa : jsTrim pa ≠ "")
    (hpn : jsTrim pn ≠ "")
    (na : '#' ∉ a.data) (np : '#' ∉ p.data) (nm : '#' ∉ m.data)
    (npr : '#' ∉ pr.data) (npa : '#' ∉ pa.data) (npn : '#' ∉ pn.data) :
    (jsSplit (generate ⟨some a, some k, some p, some m, some (formatSwissNumber n),
        some pr, some pa, some pn⟩ config) '#').getD 3 "" = String.mk (natToDigits n) := by
  have hau : jsTrim (formatSwissNumber n) ≠ "" := by
    rw [jsTrim_formatSwiss]
    exact formatSwiss_ne_empty n
  have hvi : validateInput ⟨some a, some k, some p, some m, some (formatSwissNumber n),
      some pr, some pa, some pn⟩ = true := by
    unfold validateInput fieldOk
    simp [ha, hk, hp, hm, hau, hpr, hpa, hpn]
  rw [generate_parts a k p m (formatSwissNumber n) pr pa pn config hvi _
    (buildAuflageTeil_format n)]
  apply fourth_segment
  · exact hash_not_mem_auftragsTeil a p na np
  · exact hash_not_mem_kundenTeil k pr config npr
  · exact hash_not_mem_maschineTeil m pa pn config nm npa npn
  · show '#' ∉ (String.mk (natToDigits n)).data
    exact hash_not_mem_digits n

theorem auflage_fourth_segment_witness :
    (jsSplit (generate ⟨some "A12345", some "TestKunde", some "1", some "CX75",
        some (formatSwissNumber 1200), some "BRFPP", some "ungestrichen",
        some "NoSat170"⟩ emptyConfig) '#').getD 3 "" = String.mk (natToDigits 1200) :=
  auflage_fourth_segment "A12345" "TestKunde" "1" "CX75" "BRFPP" "ungestrichen"
    "NoSat170" 1200 emptyConfig (by decide) (by norm_num) (by decide) (by decide)
    (by decide) (by decide) (by decide) (by decide) (by decide) (by decide)
    (by decide) (by decide) (by decide) (by decide) (by decide)

end PDFRename
